import Mathlib

/-!
Shallow embedding of the worker-supervision client of the claude-mem plugin:
the endpoint resolver and polling supervisor of `src/shared/worker-utils.ts`,
the HealthMonitor module (port probing, `waitForPortFree`, `httpShutdown`,
`checkVersionMatch`), and the observation / summarize hook handlers.

Conventions of the embedding:
* JavaScript numbers that may be `NaN` are embedded as `Option Int`
  (`none` = `NaN`).
* Nullable strings (`string | null | undefined`) are `Option String`.
* Network effects are driven by explicit outcome parameters: a probe sequence
  is a function from the attempt index to the outcome of that attempt.
* Code that catches all of its exceptions is embedded as a total function;
  code with an uncaught `throw` path returns `Except`.
-/

/-- Digit-prefix evaluation used by `parseIntJS`: value of the longest leading
run of decimal digits, `none` when there is no digit. -/
def digitsValue (cs : List Char) : Option Nat :=
  let ds := cs.takeWhile (fun c => c.isDigit)
  if ds.isEmpty then none
  else some (ds.foldl (fun a c => a * 10 + (c.toNat - 48)) 0)

/-- JavaScript `parseInt(s, 10)`: skip leading whitespace, accept an optional
sign, read the longest decimal-digit prefix; result is `NaN` (`none`) when no
digit is found.  `parseInt` never throws. -/
def parseIntJS (s : String) : Option Int :=
  match s.toList.dropWhile (fun c => c.isWhitespace) with
  | '-' :: rest => (digitsValue rest).map (fun n => -(n : Int))
  | '+' :: rest => (digitsValue rest).map (fun n => (n : Int))
  | rest => (digitsValue rest).map (fun n => (n : Int))

/-- The module-level memoization cells of `worker-utils.ts`
(`let cachedPort: number | null`, `let cachedHost: string | null`).
`cachedPort` holds a JS number that may be `NaN`: the source guard is
`cachedPort !== null`, so a cached `NaN` is returned as-is. -/
structure EndpointCache where
  cachedPort : Option (Option Int)
  cachedHost : Option String
deriving DecidableEq

/-- Result of one call to a cached getter: the returned value, the cache state
after the call, and whether the configuration file was (re-)read. -/
structure PortRead where
  value : Option Int
  st : EndpointCache
  readConfig : Bool
deriving DecidableEq

/-- `getWorkerPort` (worker-utils.ts:23-32): return the cached port if the
cache cell is non-null, otherwise read the settings string `cfgPort`, parse it
with `parseInt(-, 10)` and cache the result (`NaN` included). -/
def getWorkerPort (cfgPort : String) (st : EndpointCache) : PortRead :=
  match st.cachedPort with
  | some v => ⟨v, st, false⟩
  | none =>
    let v := parseIntJS cfgPort
    ⟨v, { st with cachedPort := some v }, true⟩

/-- Result of one call to the cached host getter. -/
structure HostRead where
  value : String
  st : EndpointCache
  readConfig : Bool
deriving DecidableEq

/-- `getWorkerHost` (worker-utils.ts:40-49): return the cached bind host if
present, otherwise read the settings string and cache it. -/
def getWorkerHost (cfgHost : String) (st : EndpointCache) : HostRead :=
  match st.cachedHost with
  | some v => ⟨v, st, false⟩
  | none => ⟨cfgHost, { st with cachedHost := some cfgHost }, true⟩

/-- `clearPortCache` (worker-utils.ts:95-98): reset both memoization cells to
null. -/
def clearPortCache (_st : EndpointCache) : EndpointCache := ⟨none, none⟩

/-- `getWorkerConnectHost` (worker-utils.ts:56-63): the wildcard bind address
is mapped to loopback for outbound connections; every other host is returned
unchanged. -/
def getWorkerConnectHost (bindHost : String) : String :=
  if bindHost = "0.0.0.0" then "127.0.0.1" else bindHost

/-- `envUrl.replace(/\/+$/, '')`: remove the maximal run of trailing slashes. -/
def dropTrailingSlashes (s : String) : String :=
  ⟨(s.data.reverse.dropWhile (fun c => c == '/')).reverse⟩

/-- JavaScript `String.prototype.trim()`: remove leading and trailing
whitespace. -/
def jsTrim (s : String) : String :=
  ⟨((s.data.dropWhile Char.isWhitespace).reverse.dropWhile Char.isWhitespace).reverse⟩

/-- Rendering of a JS number in a template literal; `NaN` prints as "NaN". -/
def jsNumToString : Option Int → String
  | none => "NaN"
  | some n => toString n

/-- `getWorkerUrl` (worker-utils.ts:70-80): if the environment override
`CLAUDE_MEM_WORKER_URL` is truthy and non-empty after trimming, return it with
trailing slashes stripped; otherwise compose `http://connectHost:port` from the
resolved bind host and port. -/
def getWorkerUrl (envUrl : Option String) (bindHost : String) (port : Option Int) : String :=
  match envUrl with
  | some u =>
    if (u != "") && (jsTrim u != "") then dropTrailingSlashes u
    else "http://" ++ getWorkerConnectHost bindHost ++ ":" ++ jsNumToString port
  | none => "http://" ++ getWorkerConnectHost bindHost ++ ":" ++ jsNumToString port

/-- Outcome of a `fetchWithTimeout` call as seen by its caller.
Modelled from the spec: `fetchWithTimeout` itself is repository code not under
`src/`; per spec section 4.2 it returns the raw response when the request
completes first (any status) and `none` when the timer fires first or a
transport error occurs, never raising for read-only checks.  `ok` is the
response's success flag; `versionField` is the `version` field of the JSON
body (`none` = body unparseable or field absent). -/
structure FetchResp where
  ok : Bool
  versionField : Option String
deriving DecidableEq

/-- `getRunningWorkerVersion` (HealthMonitor): `null` when there is no response
or a non-success status; otherwise the parsed `version` field, with JSON
failures caught and collapsed to `null`. -/
def getRunningWorkerVersion (resp : Option FetchResp) : Option String :=
  match resp with
  | none => none
  | some r => if r.ok then r.versionField else none

/-- The `VersionCheckResult` record of the HealthMonitor. -/
structure VersionCheckResult where
  «matches» : Bool
  pluginVersion : String
  workerVersion : Option String
deriving DecidableEq

/-- JavaScript falsiness test for a nullable string: `null`, `undefined` and
`""` are falsy. -/
def jsFalsyStr : Option String → Bool
  | none => true
  | some s => s == ""

/-- `checkVersionMatch` (HealthMonitor): the guard `if (!workerVersion)` forces
`matches = true` for every falsy worker version (absent or empty string);
otherwise `matches` is exact string equality with the plugin version. -/
def checkVersionMatch (pluginVersion : String) (resp : Option FetchResp) :
    VersionCheckResult :=
  let workerVersion := getRunningWorkerVersion resp
  if jsFalsyStr workerVersion then
    ⟨true, pluginVersion, workerVersion⟩
  else
    ⟨pluginVersion == workerVersion.getD "", pluginVersion, workerVersion⟩

/-- Outcome of the raced `fetch` inside `httpShutdown`: the timeout promise
wins; a response arrives (with its success flag and status); the fetch rejects
with `ECONNREFUSED`; or the fetch rejects with some other error. -/
inductive ShutdownOutcome
  | timeout
  | resp (ok : Bool) (status : Nat)
  | refusedErr
  | otherErr
deriving DecidableEq

/-- Severities used by the logger calls in `httpShutdown`. -/
inductive LogLevel
  | debug
  | warn
deriving DecidableEq

/-- Numeric severity order: `debug` is strictly below `warn`. -/
def LogLevel.rank : LogLevel → Nat
  | .debug => 0
  | .warn => 1

/-- `httpShutdown` (HealthMonitor): result flag together with the severity of
the failure log line it emits (`none` = no failure logged).  A timed-out race
(`undefined` result) and a non-success status log at `warn`; a rejected fetch
is caught, with `ECONNREFUSED` and any other error both logged at `debug`;
every failure path returns `false` rather than raising. -/
def httpShutdown : ShutdownOutcome → Bool × Option LogLevel
  | .timeout => (false, some .warn)
  | .resp true _ => (true, none)
  | .resp false _ => (false, some .warn)
  | .refusedErr => (false, some .debug)
  | .otherErr => (false, some .debug)

/-- `isPortInUse` (HealthMonitor): probe the health endpoint; a missing
response (timeout or transport error) counts as "not in use"
(`response?.ok ?? false`). -/
def isPortInUse (resp : Option FetchResp) : Bool :=
  match resp with
  | none => false
  | some r => r.ok

/-- Wall-clock time consumed by the first `k` in-use iterations of
`waitForPortFree` starting at attempt `i`: each iteration spends the probe's
duration plus the 500 ms sleep. -/
def portElapsed (dur : Nat → Nat) : Nat → Nat → Nat
  | _, 0 => 0
  | i, k + 1 => dur i + 500 + portElapsed dur (i + 1) k

/-- Observable outcome of a `waitForPortFree` run: the returned boolean, the
wall-clock time elapsed at return, and how many probes were issued. -/
structure PortWait where
  result : Bool
  elapsed : Nat
  probes : Nat
deriving DecidableEq

/-- The `while (Date.now() - start < timeoutMs)` loop of `waitForPortFree`.
`respSeq i` is the health response of the i-th probe, `dur i` the wall-clock
time the i-th probe takes, `t` the elapsed time at the top of the loop.  The
fuel only bounds recursion depth; since every iteration advances the clock by
at least the 500 ms sleep, fuel `timeoutMs + 1` is never exhausted. -/
def waitForPortFreeLoop (respSeq : Nat → Option FetchResp) (dur : Nat → Nat)
    (timeoutMs : Nat) : Nat → Nat → Nat → PortWait
  | 0, i, t => ⟨false, t, i⟩
  | fuel + 1, i, t =>
    if timeoutMs ≤ t then ⟨false, t, i⟩
    else if isPortInUse (respSeq i) then
      waitForPortFreeLoop respSeq dur timeoutMs fuel (i + 1) (t + dur i + 500)
    else ⟨true, t + dur i, i + 1⟩

/-- `waitForPortFree` (HealthMonitor): poll `isPortInUse` until it reports
free, sleeping 500 ms between attempts, while elapsed time is below
`timeoutMs`. -/
def waitForPortFree (respSeq : Nat → Option FetchResp) (dur : Nat → Nat)
    (timeoutMs : Nat) : PortWait :=
  waitForPortFreeLoop respSeq dur timeoutMs (timeoutMs + 1) 0 0

/-- Outcome of one `isWorkerHealthy()` call: the readiness fetch resolves to a
boolean (`response.ok`) or the fetch itself rejects. -/
inductive HealthOutcome
  | ok (healthy : Bool)
  | exn
deriving DecidableEq

/-- Outcome of one `checkWorkerVersion()` call: it returns normally (it only
logs, even on mismatch) or it throws (its version fetch rejected, returned a
non-success status, or the local manifest read failed). -/
inductive VcOutcome
  | ok
  | exn
deriving DecidableEq

/-- One attempt of the `ensureWorkerRunning` loop: the health probe outcome
and, should the probe report healthy, the version-check outcome. -/
structure Attempt where
  health : HealthOutcome
  vc : VcOutcome
deriving DecidableEq

/-- `maxRetries` of `ensureWorkerRunning` (worker-utils.ts:162). -/
def maxRetries : Nat := 15

/-- `pollInterval` of `ensureWorkerRunning` (worker-utils.ts:163), in ms. -/
def pollInterval : Nat := 200

/-- Observable outcome of an `ensureWorkerRunning` run: the returned boolean,
the number of health probes issued, the number of 200 ms sleeps performed, the
`timeoutMs` payload of the exhaustion warning (`none` = no warning), and the
attempt indices at which `checkWorkerVersion` was invoked. -/
structure EwrRun where
  result : Bool
  attemptsUsed : Nat
  sleeps : Nat
  warned : Option Nat
  vcAttempts : List Nat
deriving DecidableEq

/-- The `for (let i = 0; i < maxRetries; i++)` loop of `ensureWorkerRunning`:
on a healthy probe the version check runs; if it returns, the loop returns
`true` before sleeping; every other path (probe false, probe threw, version
check threw — the `catch` swallows both throws) sleeps 200 ms and retries.
On exhaustion the warning carries `maxRetries * pollInterval`. -/
def ewrLoop (att : Nat → Attempt) : Nat → Nat → Nat → List Nat → EwrRun
  | i, 0, sleeps, vcs => ⟨false, i, sleeps, some (maxRetries * pollInterval), vcs⟩
  | i, rem + 1, sleeps, vcs =>
    match (att i).health with
    | .ok true =>
      match (att i).vc with
      | .ok => ⟨true, i + 1, sleeps, none, vcs ++ [i]⟩
      | .exn => ewrLoop att (i + 1) rem (sleeps + 1) (vcs ++ [i])
    | .ok false => ewrLoop att (i + 1) rem (sleeps + 1) vcs
    | .exn => ewrLoop att (i + 1) rem (sleeps + 1) vcs

/-- `ensureWorkerRunning` (worker-utils.ts:161-188), as a function of the
per-attempt outcomes. -/
def ensureWorkerRunning (att : Nat → Attempt) : EwrRun :=
  ewrLoop att 0 maxRetries 0 []

/-- The `{ continue: true, suppressOutput: true }` hook result record. -/
structure HookResult where
  «continue» : Bool
  suppressOutput : Bool
deriving DecidableEq

/-- Outcome of the handlers' `fetchWithTimeout` POST as observed at the call
site: `noResponse` (timeout or internally-caught transport failure, surfaced
as `undefined`), a response with its success flag and status, or a thrown
network error (guarded by the handlers' own `try`/`catch`). -/
inductive FetchOutcome
  | noResponse
  | resp (ok : Bool) (status : Nat)
  | thrown
deriving DecidableEq

/-- `observationHandler.execute` (observation.ts): throws on a missing
`toolName` or `cwd`; every fetch outcome — no response, non-success status,
success, or thrown error — ends in `{ continue: true, suppressOutput: true }`. -/
def observationExecute (toolName cwd : Option String) (fetch : FetchOutcome) :
    Except String HookResult :=
  if jsFalsyStr toolName then .error "observationHandler requires toolName"
  else if jsFalsyStr cwd then .error "Missing cwd in PostToolUse hook input"
  else
    match fetch with
    | .noResponse => .ok ⟨true, true⟩
    | .resp _ _ => .ok ⟨true, true⟩
    | .thrown => .ok ⟨true, true⟩

/-- `summarizeHandler.execute` (the summarize handler): returns
`{ continue: true, suppressOutput: true }` when the worker is unavailable; throws on a
missing `transcriptPath`; afterwards every fetch outcome ends in
`{ continue: true, suppressOutput: true }`. -/
def summarizeExecute (workerAvailable : Bool) (transcriptPath : Option String)
    (fetch : FetchOutcome) : Except String HookResult :=
  if !workerAvailable then .ok ⟨true, true⟩
  else if jsFalsyStr transcriptPath then .error "Missing transcriptPath in Stop hook input"
  else
    match fetch with
    | .noResponse => .ok ⟨true, true⟩
    | .resp _ _ => .ok ⟨true, true⟩
    | .thrown => .ok ⟨true, true⟩

/-- The worker-communication failure paths named by the handlers' contract:
no response within the timeout, a non-success HTTP status, or a thrown
network error. -/
def commFailure (f : FetchOutcome) : Prop :=
  f = FetchOutcome.noResponse ∨ (∃ s, f = FetchOutcome.resp false s) ∨
    f = FetchOutcome.thrown

/-! Helper lemmas shared by the claim theorems. -/

/-- Trimming the empty string yields the empty string. -/
theorem trim_empty_eq : jsTrim "" = "" := by decide

/-- A string whose trim is nonempty is itself nonempty. -/
theorem ne_empty_of_trim_ne_empty (u : String) (h : jsTrim u ≠ "") : u ≠ "" := by
  intro he
  exact h (by rw [he, trim_empty_eq])

/-- Claim C8: `getWorkerConnectHost` maps the wildcard bind address "0.0.0.0"
to the loopback address "127.0.0.1", and is the identity on every other
configured host string. -/
theorem getWorkerConnectHost_wildcard_loopback :
    getWorkerConnectHost "0.0.0.0" = "127.0.0.1" ∧
    ∀ h : String, h ≠ "0.0.0.0" → getWorkerConnectHost h = h := by
  refine ⟨rfl, ?_⟩
  intro h hh
  simp [getWorkerConnectHost, hh]

/-- Witness for claim C8 at a concrete non-wildcard host. -/
theorem getWorkerConnectHost_wildcard_loopback_witness :
    getWorkerConnectHost "192.168.1.5" = "192.168.1.5" :=
  getWorkerConnectHost_wildcard_loopback.2 "192.168.1.5" (by decide)

/-- Claim C7: `getWorkerUrl` returns the environment override with trailing
slashes stripped whenever the override is non-empty after trimming, and
otherwise composes `http://` ++ connect host ++ `:` ++ port; the override
always wins over host/port composition. -/
theorem getWorkerUrl_override_wins (u bindHost : String) (port : Option Int) :
    (jsTrim u ≠ "" → getWorkerUrl (some u) bindHost port = dropTrailingSlashes u) ∧
    (jsTrim u = "" → getWorkerUrl (some u) bindHost port =
      "http://" ++ getWorkerConnectHost bindHost ++ ":" ++ jsNumToString port) ∧
    getWorkerUrl none bindHost port =
      "http://" ++ getWorkerConnectHost bindHost ++ ":" ++ jsNumToString port := by
  refine ⟨?_, ?_, rfl⟩
  · intro h
    have hu : u ≠ "" := ne_empty_of_trim_ne_empty u h
    simp [getWorkerUrl, hu, h]
  · intro h
    simp [getWorkerUrl, h]

/-- Witness for claim C7: a padded override with trailing slashes wins over
host/port composition, and a whitespace-only override falls back to it. -/
theorem getWorkerUrl_override_wins_witness :
    getWorkerUrl (some "http://box:9//") "0.0.0.0" (some 37777) = "http://box:9" ∧
    getWorkerUrl (some "  ") "0.0.0.0" (some 37777) = "http://127.0.0.1:37777" := by
  constructor
  · have h := (getWorkerUrl_override_wins "http://box:9//" "0.0.0.0" (some 37777)).1 (by decide)
    rw [h]; decide
  · have h := (getWorkerUrl_override_wins "  " "0.0.0.0" (some 37777)).2.1 (by decide)
    rw [h]; decide

/-- Counterexample to claim C6: on the unparseable port string "abc" with an
empty cache, `getWorkerPort` does not raise — it silently returns `NaN`
(`none`), caches that `NaN`, and reports the config read that produced it. -/
theorem getWorkerPort_unparseable_silent_nan :
    getWorkerPort "abc" ⟨none, none⟩ = ⟨none, ⟨some none, none⟩, true⟩ := by decide

/-- Claim C6 as amended: `getWorkerPort` never raises — on a cold cache it
returns `parseInt` of the configured string (`NaN`, i.e. `none`, when the
string is not parseable) and caches that value, `NaN` included; the next call
returns the cached value without re-reading the configuration. -/
theorem getWorkerPort_parse_and_memoize (cfgPort cfgPort2 : String) :
    getWorkerPort cfgPort ⟨none, none⟩ =
      ⟨parseIntJS cfgPort, ⟨some (parseIntJS cfgPort), none⟩, true⟩ ∧
    getWorkerPort cfgPort2 (getWorkerPort cfgPort ⟨none, none⟩).st =
      ⟨parseIntJS cfgPort, ⟨some (parseIntJS cfgPort), none⟩, false⟩ := by
  exact ⟨rfl, rfl⟩

/-- Claim C9: after `clearPortCache`, the next `getWorkerPort` and the next
`getWorkerHost` re-read the configuration source; between invalidations a
populated cache cell is returned as-is without re-reading. -/
theorem clearPortCache_forces_reread (cfgP cfgP2 cfgH cfgH2 : String)
    (st : EndpointCache) :
    getWorkerPort cfgP (clearPortCache st) =
      ⟨parseIntJS cfgP, ⟨some (parseIntJS cfgP), none⟩, true⟩ ∧
    getWorkerHost cfgH (clearPortCache st) =
      ⟨cfgH, ⟨none, some cfgH⟩, true⟩ ∧
    (∀ v, st.cachedPort = some v → getWorkerPort cfgP2 st = ⟨v, st, false⟩) ∧
    (∀ h, st.cachedHost = some h → getWorkerHost cfgH2 st = ⟨h, st, false⟩) := by
  refine ⟨rfl, rfl, ?_, ?_⟩
  · intro v hv
    simp [getWorkerPort, hv]
  · intro h hh
    simp [getWorkerHost, hh]

/-- Witness for claim C9 on a concrete populated cache: invalidation makes
both getters re-read, and without invalidation the stale values survive a
configuration change. -/
theorem clearPortCache_forces_reread_witness :
    getWorkerPort "40000" (clearPortCache ⟨some (some 37777), some "0.0.0.0"⟩) =
      ⟨some 40000, ⟨some (some 40000), none⟩, true⟩ ∧
    getWorkerHost "10.0.0.9" (clearPortCache ⟨some (some 37777), some "0.0.0.0"⟩) =
      ⟨"10.0.0.9", ⟨none, some "10.0.0.9"⟩, true⟩ ∧
    getWorkerPort "40000" ⟨some (some 37777), some "0.0.0.0"⟩ =
      ⟨some 37777, ⟨some (some 37777), some "0.0.0.0"⟩, false⟩ ∧
    getWorkerHost "10.0.0.9" ⟨some (some 37777), some "0.0.0.0"⟩ =
      ⟨"0.0.0.0", ⟨some (some 37777), some "0.0.0.0"⟩, false⟩ := by
  have h := clearPortCache_forces_reread "40000" "40000" "10.0.0.9" "10.0.0.9"
    ⟨some (some 37777), some "0.0.0.0"⟩
  refine ⟨?_, h.2.1, h.2.2.1 (some 37777) rfl, h.2.2.2 "0.0.0.0" rfl⟩
  have h1 := h.1
  rw [h1]; decide

/-- Counterexample to claim C2: a reachable worker that reports the empty
string as its version.  Both versions are obtainable ("1.0.0" and "") and
unequal, yet `checkVersionMatch` returns `matches = true`, because the source
guard `if (!workerVersion)` also fires on the falsy empty string. -/
theorem checkVersionMatch_empty_string_cex :
    getRunningWorkerVersion (some ⟨true, some ""⟩) = some "" ∧
    ("1.0.0" : String) ≠ "" ∧
    (checkVersionMatch "1.0.0" (some ⟨true, some ""⟩)).matches = true := by decide

/-- Claim C2 as amended: `checkVersionMatch` returns `matches = true` whenever
the worker version cannot be obtained (no response, non-success status, or
unparseable body), regardless of the installed version; an obtained
empty-string version is likewise forced to `matches = true`; and
`matches = false` iff both versions are obtainable, the worker version is a
nonempty string, and the two differ under exact string comparison. -/
theorem checkVersionMatch_graceful_degradation (pluginVersion : String)
    (resp : Option FetchResp) :
    (checkVersionMatch pluginVersion resp).workerVersion =
      getRunningWorkerVersion resp ∧
    (getRunningWorkerVersion resp = none →
      (checkVersionMatch pluginVersion resp).matches = true) ∧
    (getRunningWorkerVersion resp = some "" →
      (checkVersionMatch pluginVersion resp).matches = true) ∧
    (∀ v, getRunningWorkerVersion resp = some v → v ≠ "" →
      ((checkVersionMatch pluginVersion resp).matches = false ↔
        pluginVersion ≠ v)) := by
  refine ⟨?_, ?_, ?_, ?_⟩
  · by_cases h : jsFalsyStr (getRunningWorkerVersion resp) = true
    · simp [checkVersionMatch, h]
    · simp [checkVersionMatch, h]
  · intro h
    simp [checkVersionMatch, h, jsFalsyStr]
  · intro h
    simp [checkVersionMatch, h, jsFalsyStr]
  · intro v hv hne
    have hf2 : jsFalsyStr (some v) = false := by
      simp [jsFalsyStr, hne]
    simp [checkVersionMatch, hv, hf2, beq_eq_false_iff_ne]

/-- Witness for claim C2 at concrete versions: a missing response matches, a
reachable worker with a different nonempty version does not. -/
theorem checkVersionMatch_graceful_degradation_witness :
    (checkVersionMatch "9.9.9" none).matches = true ∧
    (checkVersionMatch "1.2.3" (some ⟨true, some "1.2.4"⟩)).matches = false := by
  constructor
  · exact (checkVersionMatch_graceful_degradation "9.9.9" none).2.1 rfl
  · exact ((checkVersionMatch_graceful_degradation "1.2.3"
      (some ⟨true, some "1.2.4"⟩)).2.2.2 "1.2.4" rfl (by decide)).mpr (by decide)

/-- Claim C5: `httpShutdown` returns `true` iff a response is received before
the timeout and its status is success-class; the connection-refused rejection
(worker already stopped) yields `false` with a `debug`-level log, strictly
below the `warn` level used for the timeout and error-status failures; a
thrown transport error likewise yields `false` without raising. -/
theorem httpShutdown_result_and_severity (status : Nat) :
    httpShutdown (ShutdownOutcome.resp true status) = (true, none) ∧
    httpShutdown (ShutdownOutcome.resp false status) = (false, some LogLevel.warn) ∧
    httpShutdown ShutdownOutcome.timeout = (false, some LogLevel.warn) ∧
    httpShutdown ShutdownOutcome.refusedErr = (false, some LogLevel.debug) ∧
    httpShutdown ShutdownOutcome.otherErr = (false, some LogLevel.debug) ∧
    LogLevel.rank LogLevel.debug < LogLevel.rank LogLevel.warn ∧
    (∀ o, (httpShutdown o).1 = true ↔ ∃ s, o = ShutdownOutcome.resp true s) := by
  refine ⟨rfl, rfl, rfl, rfl, rfl, by decide, ?_⟩
  intro o
  cases o with
  | timeout => simp [httpShutdown]
  | resp ok s =>
    cases ok <;> simp [httpShutdown]
  | refusedErr => simp [httpShutdown]
  | otherErr => simp [httpShutdown]

/-- Witness for claim C5 at a concrete status. -/
theorem httpShutdown_result_and_severity_witness :
    httpShutdown ShutdownOutcome.refusedErr = (false, some LogLevel.debug) ∧
    (httpShutdown (ShutdownOutcome.resp true 200)).1 = true :=
  ⟨(httpShutdown_result_and_severity 200).2.2.2.1,
   by rw [(httpShutdown_result_and_severity 200).1]⟩

/-- Claim C10: with the required fields present (`toolName` and `cwd` for the
observation handler; `transcriptPath` for the summarize handler with the
worker available), every worker-communication failure — no response within
the timeout, non-success HTTP status, or thrown network error — makes both
handlers return `{ continue: true, suppressOutput: true }` rather than raise
or block. -/
theorem handlers_graceful_on_comm_failure (toolName cwd transcriptPath : Option String)
    (f : FetchOutcome)
    (htn : jsFalsyStr toolName = false) (hcwd : jsFalsyStr cwd = false)
    (htp : jsFalsyStr transcriptPath = false) (hf : commFailure f) :
    observationExecute toolName cwd f = Except.ok ⟨true, true⟩ ∧
    summarizeExecute true transcriptPath f = Except.ok ⟨true, true⟩ := by
  rcases hf with h | ⟨s, h⟩ | h <;>
    subst h <;>
    simp [observationExecute, summarizeExecute, htn, hcwd, htp]

/-- Witness for claim C10: a populated hook input with a thrown network
error. -/
theorem handlers_graceful_on_comm_failure_witness :
    observationExecute (some "Write") (some "/tmp/proj") FetchOutcome.thrown =
      Except.ok ⟨true, true⟩ ∧
    summarizeExecute true (some "/tmp/t.jsonl") FetchOutcome.thrown =
      Except.ok ⟨true, true⟩ :=
  handlers_graceful_on_comm_failure (some "Write") (some "/tmp/proj")
    (some "/tmp/t.jsonl") FetchOutcome.thrown (by decide) (by decide) (by decide)
    (Or.inr (Or.inr rfl))

/-- Unrolling `ewrLoop` over a window with no healthy probe: all attempts are
consumed, each followed by a sleep, and the exhaustion warning fires. -/
theorem ewrLoop_exhaust (att : Nat → Attempt) :
    ∀ rem i sleeps vcs,
      (∀ j, j < rem → (att (i + j)).health ≠ HealthOutcome.ok true) →
      ewrLoop att i rem sleeps vcs =
        ⟨false, i + rem, sleeps + rem, some (maxRetries * pollInterval), vcs⟩ := by
  intro rem
  induction rem with
  | zero =>
    intro i sleeps vcs _
    simp [ewrLoop]
  | succ r ih =>
    intro i sleeps vcs h
    have h0 : (att i).health ≠ HealthOutcome.ok true := by
      have h00 := h 0 (by omega)
      simpa using h00
    have hnext : ∀ j, j < r → (att (i + 1 + j)).health ≠ HealthOutcome.ok true := by
      intro j hj
      have hjj := h (j + 1) (by omega)
      have e : i + (j + 1) = i + 1 + j := by omega
      rw [e] at hjj
      exact hjj
    have hrec := ih (i + 1) (sleeps + 1) vcs hnext
    cases hh : (att i).health with
    | ok b =>
      cases b with
      | true => exact absurd hh h0
      | false =>
        rw [show ewrLoop att i (r + 1) sleeps vcs
            = ewrLoop att (i + 1) r (sleeps + 1) vcs from by simp [ewrLoop, hh]]
        rw [hrec]
        have e1 : i + 1 + r = i + (r + 1) := by omega
        have e2 : sleeps + 1 + r = sleeps + (r + 1) := by omega
        rw [e1, e2]
    | exn =>
        rw [show ewrLoop att i (r + 1) sleeps vcs
            = ewrLoop att (i + 1) r (sleeps + 1) vcs from by simp [ewrLoop, hh]]
        rw [hrec]
        have e1 : i + 1 + r = i + (r + 1) := by omega
        have e2 : sleeps + 1 + r = sleeps + (r + 1) := by omega
        rw [e1, e2]

/-- Claim C3: when the readiness probe never succeeds, `ensureWorkerRunning`
performs exactly 15 probe attempts with a 200 ms pause after each, logs the
exhaustion warning carrying the total budget `maxRetries * pollInterval`
(= 3000 ms), returns `false`, and performs no version check; the loop catches
every probe exception, so worker unavailability never raises (the embedding is
a total function). -/
theorem ensureWorkerRunning_exhausts_budget (att : Nat → Attempt)
    (h : ∀ i, i < maxRetries → (att i).health ≠ HealthOutcome.ok true) :
    ensureWorkerRunning att =
      ⟨false, maxRetries, maxRetries, some (maxRetries * pollInterval), []⟩ ∧
    maxRetries = 15 ∧ maxRetries * pollInterval = 3000 := by
  refine ⟨?_, rfl, rfl⟩
  have hrw := ewrLoop_exhaust att maxRetries 0 0 []
    (fun j hj => by simpa using h j hj)
  simpa [ensureWorkerRunning] using hrw

/-- Witness for claim C3: a probe that always throws exhausts the budget. -/
theorem ensureWorkerRunning_exhausts_budget_witness :
    ensureWorkerRunning (fun _ => ⟨HealthOutcome.exn, VcOutcome.ok⟩) =
      ⟨false, 15, 15, some 3000, []⟩ :=
  (ensureWorkerRunning_exhausts_budget (fun _ => ⟨HealthOutcome.exn, VcOutcome.ok⟩)
    (by decide)).1

/-- Unrolling `ewrLoop` to the first healthy attempt whose version check
returns: the loop returns `true` there, after one version check and one sleep
per failed attempt, with no warning. -/
theorem ewrLoop_first_success (att : Nat → Attempt) :
    ∀ d i sleeps vcs rem,
      d < rem →
      (∀ j, j < d → (att (i + j)).health ≠ HealthOutcome.ok true) →
      (att (i + d)).health = HealthOutcome.ok true →
      (att (i + d)).vc = VcOutcome.ok →
      ewrLoop att i rem sleeps vcs =
        ⟨true, i + d + 1, sleeps + d, none, vcs ++ [i + d]⟩ := by
  intro d
  induction d with
  | zero =>
    intro i sleeps vcs rem hrem _ hsucc hvc
    cases rem with
    | zero => omega
    | succ r =>
      simp only [Nat.add_zero] at hsucc hvc
      simp [ewrLoop, hsucc, hvc]
  | succ dd ih =>
    intro i sleeps vcs rem hrem hbefore hsucc hvc
    cases rem with
    | zero => omega
    | succ r =>
      have h0 : (att i).health ≠ HealthOutcome.ok true := by
        have hb := hbefore 0 (by omega)
        simpa using hb
      have hbefore2 : ∀ j, j < dd → (att (i + 1 + j)).health ≠ HealthOutcome.ok true := by
        intro j hj
        have hb := hbefore (j + 1) (by omega)
        have e : i + (j + 1) = i + 1 + j := by omega
        rw [e] at hb
        exact hb
      have e0 : i + (dd + 1) = i + 1 + dd := by omega
      rw [e0] at hsucc hvc
      have hrec := ih (i + 1) (sleeps + 1) vcs r (by omega) hbefore2 hsucc hvc
      cases hh : (att i).health with
      | ok b =>
        cases b with
        | true => exact absurd hh h0
        | false =>
          rw [show ewrLoop att i (r + 1) sleeps vcs
              = ewrLoop att (i + 1) r (sleeps + 1) vcs from by simp [ewrLoop, hh]]
          rw [hrec]
          have e1 : i + 1 + dd = i + (dd + 1) := by omega
          have e2 : sleeps + 1 + dd = sleeps + (dd + 1) := by omega
          rw [e1, e2]
      | exn =>
          rw [show ewrLoop att i (r + 1) sleeps vcs
              = ewrLoop att (i + 1) r (sleeps + 1) vcs from by simp [ewrLoop, hh]]
          rw [hrec]
          have e1 : i + 1 + dd = i + (dd + 1) := by omega
          have e2 : sleeps + 1 + dd = sleeps + (dd + 1) := by omega
          rw [e1, e2]

/-- Claim C1 as amended: if the combined readiness probe first succeeds on
attempt index `N` (< 15) and the version check performed on that attempt does
not throw, `ensureWorkerRunning` performs the version check exactly there —
its only recorded effect, no restart — and returns `true` on that same
attempt, leaving the remaining attempts unused and the warning unissued. -/
theorem ensureWorkerRunning_short_circuits (att : Nat → Attempt) (N : Nat)
    (hN : N < maxRetries)
    (hbefore : ∀ j, j < N → (att j).health ≠ HealthOutcome.ok true)
    (hsucc : (att N).health = HealthOutcome.ok true)
    (hvc : (att N).vc = VcOutcome.ok) :
    ensureWorkerRunning att = ⟨true, N + 1, N, none, [N]⟩ := by
  have hrw := ewrLoop_first_success att N 0 0 [] maxRetries hN
    (fun j hj => by simpa using hbefore j hj) (by simpa using hsucc)
    (by simpa using hvc)
  simpa [ensureWorkerRunning] using hrw

/-- Probe sequence refuting claim C1 as stated: the readiness probe succeeds
on the very first attempt, but the version check on that attempt throws. -/
def attemptVcThrow : Nat → Attempt := fun i =>
  if i = 0 then ⟨HealthOutcome.ok true, VcOutcome.exn⟩
  else ⟨HealthOutcome.ok false, VcOutcome.ok⟩

/-- Counterexample to claim C1 as stated: although `isWorkerHealthy` succeeds
on attempt 1 (index 0), the version-check throw is swallowed by the loop's
`catch`, so `ensureWorkerRunning` does not return `true` on that attempt — it
consumes all 15 attempts and returns `false`. -/
theorem ensureWorkerRunning_vc_throw_cex :
    (attemptVcThrow 0).health = HealthOutcome.ok true ∧
    0 < maxRetries ∧
    (ensureWorkerRunning attemptVcThrow).result = false ∧
    (ensureWorkerRunning attemptVcThrow).attemptsUsed = maxRetries := by decide

/-- Witness for claim C1: first success on attempt index 2 returns `true`
there, with exactly three probes, two sleeps and one version check. -/
theorem ensureWorkerRunning_short_circuits_witness :
    ensureWorkerRunning (fun i =>
      if i = 2 then ⟨HealthOutcome.ok true, VcOutcome.ok⟩
      else ⟨HealthOutcome.ok false, VcOutcome.ok⟩) = ⟨true, 3, 2, none, [2]⟩ :=
  ensureWorkerRunning_short_circuits _ 2 (by decide) (by decide) (by decide)
    (by decide)

/-- Each in-use iteration of `waitForPortFree` advances the clock by at least
the 500 ms sleep, so `k` iterations take at least `k` ms. -/
theorem portElapsed_ge (dur : Nat → Nat) : ∀ k i, k ≤ portElapsed dur i k := by
  intro k
  induction k with
  | zero =>
    intro i
    simp [portElapsed]
  | succ kk ih =>
    intro i
    have h1 := ih (i + 1)
    have h2 : portElapsed dur i (kk + 1)
        = dur i + 500 + portElapsed dur (i + 1) kk := rfl
    omega

/-- While every probe reports in use, the `waitForPortFree` loop returns
`false`, and only once the wall-clock deadline has elapsed. -/
theorem waitForPortFreeLoop_in_use (respSeq : Nat → Option FetchResp)
    (dur : Nat → Nat) (timeoutMs : Nat)
    (hall : ∀ i, isPortInUse (respSeq i) = true) :
    ∀ fuel i t, timeoutMs + 1 ≤ t + fuel →
      (waitForPortFreeLoop respSeq dur timeoutMs fuel i t).result = false ∧
      timeoutMs ≤ (waitForPortFreeLoop respSeq dur timeoutMs fuel i t).elapsed := by
  intro fuel
  induction fuel with
  | zero =>
    intro i t h
    refine ⟨rfl, ?_⟩
    show timeoutMs ≤ t
    omega
  | succ f ih =>
    intro i t h
    by_cases ht : timeoutMs ≤ t
    · simp [waitForPortFreeLoop, ht]
    · have hstep : waitForPortFreeLoop respSeq dur timeoutMs (f + 1) i t
          = waitForPortFreeLoop respSeq dur timeoutMs f (i + 1) (t + dur i + 500) := by
        simp [waitForPortFreeLoop, ht, hall i]
      rw [hstep]
      exact ih (i + 1) (t + dur i + 500) (by omega)

/-- Unrolling the `waitForPortFree` loop to the first free-report: the loop
returns `true` at that probe, provided it starts before the deadline. -/
theorem waitForPortFreeLoop_first_free (respSeq : Nat → Option FetchResp)
    (dur : Nat → Nat) (timeoutMs : Nat) :
    ∀ k fuel i t,
      (∀ j, j < k → isPortInUse (respSeq (i + j)) = true) →
      isPortInUse (respSeq (i + k)) = false →
      t + portElapsed dur i k < timeoutMs →
      k < fuel →
      waitForPortFreeLoop respSeq dur timeoutMs fuel i t =
        ⟨true, t + portElapsed dur i k + dur (i + k), i + k + 1⟩ := by
  intro k
  induction k with
  | zero =>
    intro fuel i t _ hfree htime hfuel
    cases fuel with
    | zero => omega
    | succ f =>
      have hpe : portElapsed dur i 0 = 0 := rfl
      have ht : ¬ timeoutMs ≤ t := by omega
      simp only [Nat.add_zero] at hfree
      simp [waitForPortFreeLoop, ht, hfree, hpe]
  | succ kk ih =>
    intro fuel i t hbusy hfree htime hfuel
    cases fuel with
    | zero => omega
    | succ f =>
      have hpe : portElapsed dur i (kk + 1)
          = dur i + 500 + portElapsed dur (i + 1) kk := rfl
      have ht : ¬ timeoutMs ≤ t := by omega
      have h0 : isPortInUse (respSeq i) = true := by
        have hb := hbusy 0 (by omega)
        simpa using hb
      have hbusy2 : ∀ j, j < kk → isPortInUse (respSeq (i + 1 + j)) = true := by
        intro j hj
        have hb := hbusy (j + 1) (by omega)
        have e : i + (j + 1) = i + 1 + j := by omega
        rw [e] at hb
        exact hb
      have hfree2 : isPortInUse (respSeq (i + 1 + kk)) = false := by
        have e : i + (kk + 1) = i + 1 + kk := by omega
        rw [e] at hfree
        exact hfree
      have htime2 : t + dur i + 500 + portElapsed dur (i + 1) kk < timeoutMs := by
        omega
      have hstep : waitForPortFreeLoop respSeq dur timeoutMs (f + 1) i t
          = waitForPortFreeLoop respSeq dur timeoutMs f (i + 1) (t + dur i + 500) := by
        simp [waitForPortFreeLoop, ht, h0]
      rw [hstep, ih f (i + 1) (t + dur i + 500) hbusy2 hfree2 htime2 (by omega)]
      have e1 : i + 1 + kk = i + (kk + 1) := by omega
      have e2 : t + dur i + 500 + portElapsed dur (i + 1) kk
          = t + portElapsed dur i (kk + 1) := by omega
      rw [e1, e2]

/-- Claim C4: `waitForPortFree` returns `true` at the first probe reporting
the port free (earlier probes in use, that probe starting before the
deadline), sleeping 500 ms between attempts; if every probe reports in use it
returns `false`, and only after the wall-clock deadline `timeoutMs` has
elapsed. -/
theorem waitForPortFree_first_free_or_deadline (respSeq : Nat → Option FetchResp)
    (dur : Nat → Nat) (timeoutMs : Nat) :
    ((∀ i, isPortInUse (respSeq i) = true) →
      (waitForPortFree respSeq dur timeoutMs).result = false ∧
      timeoutMs ≤ (waitForPortFree respSeq dur timeoutMs).elapsed) ∧
    (∀ k, (∀ j, j < k → isPortInUse (respSeq j) = true) →
      isPortInUse (respSeq k) = false →
      portElapsed dur 0 k < timeoutMs →
      waitForPortFree respSeq dur timeoutMs =
        ⟨true, portElapsed dur 0 k + dur k, k + 1⟩) := by
  constructor
  · intro hall
    exact waitForPortFreeLoop_in_use respSeq dur timeoutMs hall
      (timeoutMs + 1) 0 0 (by omega)
  · intro k hbusy hfree htime
    have hk : k < timeoutMs + 1 := by
      have := portElapsed_ge dur k 0
      omega
    have hrw := waitForPortFreeLoop_first_free respSeq dur timeoutMs k
      (timeoutMs + 1) 0 0 (fun j hj => by simpa using hbusy j hj)
      (by simpa using hfree) (by simpa using htime) hk
    simpa [waitForPortFree] using hrw

/-- Witness for claim C4: a port that stays busy for the whole 1000 ms budget
yields `false` at or past the deadline; a port busy only on the first probe
yields `true` on the second probe, 500 ms in. -/
theorem waitForPortFree_first_free_or_deadline_witness :
    (waitForPortFree (fun _ => some ⟨true, none⟩) (fun _ => 0) 1000).result = false ∧
    1000 ≤ (waitForPortFree (fun _ => some ⟨true, none⟩) (fun _ => 0) 1000).elapsed ∧
    waitForPortFree (fun i => if i = 0 then some ⟨true, none⟩ else none)
      (fun _ => 0) 1000 = ⟨true, 500, 2⟩ := by
  have h1 := (waitForPortFree_first_free_or_deadline (fun _ => some ⟨true, none⟩)
    (fun _ => 0) 1000).1 (fun i => rfl)
  have h2 := (waitForPortFree_first_free_or_deadline
    (fun i => if i = 0 then some ⟨true, none⟩ else none) (fun _ => 0) 1000).2 1
    (by decide) (by decide) (by decide)
  refine ⟨h1.1, h1.2, ?_⟩
  rw [h2]
  decide
